import Mathlib

/-!
Verification development for the cloud-connect network-diagnostics engine.

The probing engine consists of small Go executables:
  * `network/net-grab.go` (first document): host sweep scanner (`Scanner`);
  * `network/net-grab.go` (second document): standalone port scanner
    (`parsePortRange`, `scanPortWithContext`, `scanPortsWithRateLimit`, `main`);
  * `unnamed/part_014`: the full host sweep scanner (`parsePortSpec`,
    `Scanner.scanHost`, `Scanner.scanPorts`, `detailedPing`, `parsePingOutput`,
    `calculateJitter`, `calculateLatencyStats`);
  * `network/traceroute.go`: traceroute runner and its output parsers;
  * `network/connectivity.go`: reachability prober.

Go strings are embedded as `List Char` (the character sequence of the string;
the probed text is ASCII throughout).  Go `int` is embedded as `Int`,
Go `float64` as `ℚ` (exact rational arithmetic standing in for the float
operations the code performs).  External effects (socket dials, subprocess
runs, reads, clocks) are passed in as explicit outcome parameters, and the
nondeterministic completion order of concurrent probes is passed in as an
explicit completion sequence.
-/

/-! ### Go string primitives (`strings` package), on `List Char` -/

/-- `strings.Split(s, sep)` for a one-character separator. -/
def splitOnChar (sep : Char) : List Char → List (List Char)
  | [] => [[]]
  | c :: cs =>
    if c = sep then [] :: splitOnChar sep cs
    else
      match splitOnChar sep cs with
      | [] => [[c]]
      | t :: ts => (c :: t) :: ts

/-- Whitespace as trimmed by `strings.TrimSpace` (ASCII portion of
`unicode.IsSpace`). -/
def isSpaceChar (c : Char) : Bool :=
  c = ' ' || c = '\t' || c = '\n' || c = '\x0b' || c = '\x0c' || c = '\r'

/-- `strings.TrimSpace`. -/
def trimSpace (cs : List Char) : List Char :=
  ((cs.dropWhile isSpaceChar).reverse.dropWhile isSpaceChar).reverse

/-- `strings.ToLower` (ASCII). -/
def toLowerStr (cs : List Char) : List Char :=
  cs.map Char.toLower

/-- Digit run to number, most significant first. -/
def digitsToNat (ds : List Char) : Nat :=
  ds.foldl (fun a c => a * 10 + (c.toNat - 48)) 0

/-- `strconv.Atoi`: optional sign, then a nonempty digit run and nothing
else; 64-bit range, out-of-range input is an error. -/
def atoi (s : List Char) : Option Int :=
  match s with
  | [] => none
  | c :: cs =>
    let sign : Int := if c = '-' then -1 else 1
    let digits := if c = '-' || c = '+' then cs else c :: cs
    if digits = [] then none
    else if digits.all Char.isDigit then
      let v : Int := sign * (digitsToNat digits : Int)
      if v < -(2 ^ 63) || v > 2 ^ 63 - 1 then none else some v
    else none

/-- `strconv.Atoi` with the error ignored (`hopNumber, _ := strconv.Atoi(..)`):
a digit-only token that overflows comes back clamped, anything else
syntactically invalid comes back as `0`. -/
def atoiLossy (s : List Char) : Int :=
  match atoi s with
  | some v => v
  | none => if s ≠ [] && s.all Char.isDigit then 2 ^ 63 - 1 else 0

/-- `strconv.ParseFloat` on the unsigned decimal tokens the probe parsers
capture (`[0-9.]` runs): at most one dot, at least one digit; the float
value is idealised as the exact rational. -/
def parseFloatQ (s : List Char) : Option ℚ :=
  let intPart := s.takeWhile Char.isDigit
  match s.dropWhile Char.isDigit with
  | [] => if intPart = [] then none else some (digitsToNat intPart : ℚ)
  | '.' :: frac =>
    if frac.all Char.isDigit && (intPart ≠ [] || frac ≠ []) then
      some ((digitsToNat intPart : ℚ) + (digitsToNat frac : ℚ) / (10 : ℚ) ^ frac.length)
    else none
  | _ => none

/-- `strconv.ParseFloat` with the error ignored (value `0` on error). -/
def parseFloatLossy (s : List Char) : ℚ :=
  (parseFloatQ s).getD 0

/-- `%d` rendering of a `Nat`. -/
def natToChars (n : Nat) : List Char :=
  Nat.toDigits 10 n

/-- `%d` rendering of a Go `int`. -/
def intToChars (i : Int) : List Char :=
  if i < 0 then '-' :: natToChars i.natAbs else natToChars i.toNat

/-- The inclusive `for port := a; port <= b; port++` enumeration. -/
def intRange (a b : Int) : List Int :=
  (List.range (b + 1 - a).toNat).map (fun k => a + Int.ofNat k)

/-! ### Port-spec parsing

Source: `parsePortRange` in the standalone port scanner (second document of
`network/net-grab.go`, lines 304-348) and `parsePortSpec` in the host sweep
scanner (`unnamed/part_014`, lines 626-684). -/

/-- `PortScanOptions` of `unnamed/part_014` (zero values as in Go). -/
structure PortScanOptions where
  Ports : List Int := []
  StartPort : Int := 0
  EndPort : Int := 0
  ScanAll : Bool := false
deriving DecidableEq

/-- `MaxPort` constant of `unnamed/part_014`. -/
def MaxPort : Int := 65535

/-- The token loop of the comma branch of `parsePortSpec`
(`unnamed/part_014`, lines 638-649), with `acc` the ports appended so far. -/
def parseListLoop : List (List Char) → List Int → Except (List Char) (List Int)
  | [], acc => .ok acc
  | p :: rest, acc =>
    match atoi (trimSpace p) with
    | none => .error ("invalid port: ".data ++ p)
    | some port =>
      if port < 1 || port > MaxPort then .error ("invalid port: ".data ++ p)
      else parseListLoop rest (acc ++ [port])

/-- `parsePortSpec` (`unnamed/part_014`, lines 626-684). -/
def parsePortSpec (spec : List Char) : Except (List Char) PortScanOptions :=
  if toLowerStr spec = "all".data then
    .ok { ScanAll := true, StartPort := 1, EndPort := MaxPort }
  else if ',' ∈ spec then
    match parseListLoop (splitOnChar ',' spec) [] with
    | .error e => .error e
    | .ok ports => .ok { Ports := ports }
  else if '-' ∈ spec then
    match splitOnChar '-' spec with
    | [p0, p1] =>
      match atoi (trimSpace p0) with
      | none => .error ("invalid start port: ".data ++ p0)
      | some start =>
        if start < 1 || start > MaxPort then .error ("invalid start port: ".data ++ p0)
        else
          match atoi (trimSpace p1) with
          | none => .error ("invalid end port: ".data ++ p1)
          | some e =>
            if e < 1 || e > MaxPort then .error ("invalid end port: ".data ++ p1)
            else
              .ok { StartPort := if start > e then e else start,
                    EndPort := if start > e then start else e }
    | _ => .error ("invalid port range: ".data ++ spec)
  else
    match atoi spec with
    | none => .error ("invalid port: ".data ++ spec)
    | some port =>
      if port < 1 || port > MaxPort then .error ("invalid port: ".data ++ spec)
      else .ok { Ports := [port] }

/-- The port list `Scanner.scanPorts` derives from its options
(`unnamed/part_014`, lines 463-477; the `ScanAll` branch and the range
branch build the same inclusive enumeration). -/
def expandOptions (o : PortScanOptions) : List Int :=
  if o.Ports.length > 0 then o.Ports
  else intRange o.StartPort o.EndPort

/-- The token loop of `parsePortRange` in the standalone port scanner
(`network/net-grab.go` second document, lines 308-345). -/
def parseRangeLoop : List (List Char) → List Int → Except (List Char) (List Int)
  | [], acc => .ok acc
  | rsRaw :: rest, acc =>
    let rs := trimSpace rsRaw
    if '-' ∈ rs then
      match splitOnChar '-' rs with
      | [sStr, eStr] =>
        match atoi sStr with
        | none => .error ("invalid start port: ".data ++ sStr)
        | some start =>
          match atoi eStr with
          | none => .error ("invalid end port: ".data ++ eStr)
          | some e =>
            if start > e || start < 1 || e > 65535 then
              .error ("invalid port range: ".data ++ rs ++ " (must be 1-65535)".data)
            else parseRangeLoop rest (acc ++ intRange start e)
      | _ => .error ("invalid port range: ".data ++ rs)
    else
      match atoi rs with
      | none => .error ("invalid port: ".data ++ rs)
      | some port =>
        if port < 1 || port > 65535 then
          .error ("port must be between 1 and 65535: ".data ++ intToChars port)
        else parseRangeLoop rest (acc ++ [port])

/-- `parsePortRange` (`network/net-grab.go` second document, lines 304-348). -/
def parsePortRange (portsArg : List Char) : Except (List Char) (List Int) :=
  parseRangeLoop (splitOnChar ',' portsArg) []

/-- Modelled from the spec: the port-spec grammar of section 4.2.  `N` is a
single port, `N,M,...` a list of ports, `N-M` an inclusive range with the
endpoints swapped when reversed, `all` the range 1-65535; a token that is
not a number in 1-65535 makes the whole specification invalid (`none`).
Tokens are the comma-separated (or dash-separated) items,
whitespace-insensitively. -/
def grammarNum (t : List Char) : Option Int :=
  match atoi t with
  | none => none
  | some n => if n < 1 || n > 65535 then none else some n

/-- Modelled from the spec: expansion of a list of single-port tokens. -/
def tokensExpand : List (List Char) → Option (List Int)
  | [] => some []
  | t :: ts =>
    match grammarNum (trimSpace t), tokensExpand ts with
    | some n, some ns => some (n :: ns)
    | _, _ => none

/-- Modelled from the spec: the expanded port set of a port specification
under the section 4.2 grammar (`none` when the specification is invalid). -/
def grammarExpand (spec : List Char) : Option (List Int) :=
  if toLowerStr spec = "all".data then some (intRange 1 65535)
  else if ',' ∈ spec then tokensExpand (splitOnChar ',' spec)
  else if '-' ∈ spec then
    match splitOnChar '-' spec with
    | [a, b] =>
      match grammarNum (trimSpace a), grammarNum (trimSpace b) with
      | some x, some y => some (intRange (min x y) (max x y))
      | _, _ => none
    | _ => none
  else (grammarNum spec).map (fun n => [n])

/-! ### C1 lemmas -/

theorem splitOnChar_ne_nil (c : Char) (cs : List Char) : splitOnChar c cs ≠ [] := by
  induction cs with
  | nil => simp [splitOnChar]
  | cons x tl ih =>
    simp only [splitOnChar]
    split
    · simp
    · cases h : splitOnChar c tl <;> simp

theorem splitOnChar_length_ge_two (c : Char) (cs : List Char) (h : c ∈ cs) :
    2 ≤ (splitOnChar c cs).length := by
  induction cs with
  | nil => cases h
  | cons x tl ih =>
    simp only [splitOnChar]
    by_cases hx : x = c
    · simp only [if_pos hx, List.length_cons]
      have hne := splitOnChar_ne_nil c tl
      have h1 : 1 ≤ (splitOnChar c tl).length := by
        cases hs : splitOnChar c tl with
        | nil => exact absurd hs hne
        | cons t ts => simp
      omega
    · have hmem : c ∈ tl := by
        rcases List.mem_cons.mp h with h1 | h1
        · exact absurd h1.symm hx
        · exact h1
      have h2 := ih hmem
      simp only [if_neg hx]
      cases hs : splitOnChar c tl with
      | nil => exact absurd hs (splitOnChar_ne_nil c tl)
      | cons t ts => rw [hs] at h2; simpa using h2

theorem tokensExpand_length (ts : List (List Char)) (ns : List Int)
    (h : tokensExpand ts = some ns) : ns.length = ts.length := by
  induction ts generalizing ns with
  | nil => simp [tokensExpand] at h; simp [← h]
  | cons t rest ih =>
    simp only [tokensExpand] at h
    cases hg : grammarNum (trimSpace t) with
    | none => rw [hg] at h; cases h
    | some n =>
      rw [hg] at h
      cases hr : tokensExpand rest with
      | none => rw [hr] at h; cases h
      | some ms =>
        rw [hr] at h
        cases h
        simp [ih ms hr]

theorem parseListLoop_toOption (ts : List (List Char)) :
    ∀ acc, (parseListLoop ts acc).toOption = (tokensExpand ts).map (acc ++ ·) := by
  induction ts with
  | nil => intro acc; simp [parseListLoop, tokensExpand, Except.toOption]
  | cons p rest ih =>
    intro acc
    simp only [parseListLoop, tokensExpand, grammarNum, MaxPort]
    cases ha : atoi (trimSpace p) with
    | none => simp [Except.toOption]
    | some port =>
      by_cases hb : (port < 1 || port > 65535) = true
      · simp [hb, Except.toOption]
      · simp only [if_neg hb]
        rw [ih (acc ++ [port])]
        cases hr : tokensExpand rest with
        | none => simp
        | some ms => simp

deriving instance DecidableEq for Except

/-- C1 counterexample: the claim says a reversed range such as "100-50" is
auto-swapped by the port scanner and expands to 50..100, but the standalone
port scanner rejects it as an error. -/
theorem c1_parsePortRange_reversed_counterexample :
    parsePortRange "100-50".data ≠ .ok (intRange 50 100)
    ∧ parsePortRange "100-50".data
        = .error "invalid port range: 100-50 (must be 1-65535)".data
    ∧ parsePortRange "all".data = .error "invalid port: all".data := by
  refine ⟨?_, by decide, by decide⟩
  decide

/-- C1 (amended): port-spec expansion follows the grammar in the host sweep
scanner: `parsePortSpec` expands a single number to itself, a comma list to
the listed ports, a range with endpoints auto-swapped when reversed, and
"all" to 1..65535, failing the whole request on any invalid token.  The
standalone port scanner accepts singles, lists and forward ranges, but
rejects a reversed range such as "100-50" as an error instead of swapping
and has no "all" keyword. -/
theorem c1_portSpecGrammar_amended :
    (∀ spec : List Char,
        ((parsePortSpec spec).map expandOptions).toOption = grammarExpand spec)
    ∧ parsePortRange "50-100".data = .ok (intRange 50 100)
    ∧ parsePortRange "100-50".data
        = .error "invalid port range: 100-50 (must be 1-65535)".data
    ∧ parsePortRange "80,443".data = .ok [80, 443]
    ∧ parsePortRange "all".data = .error "invalid port: all".data := by
  refine ⟨?_, by decide, by decide, by decide, by decide⟩
  intro spec
  simp only [parsePortSpec, grammarExpand]
  by_cases h1 : toLowerStr spec = "all".data
  · simp [h1, expandOptions, Except.toOption, Except.map, MaxPort]
  · simp only [if_neg h1]
    by_cases h2 : ',' ∈ spec
    · simp only [if_pos h2]
      have key := parseListLoop_toOption (splitOnChar ',' spec) []
      cases ht : tokensExpand (splitOnChar ',' spec) with
      | none =>
        rw [ht] at key
        simp only [Option.map] at key
        cases hp : parseListLoop (splitOnChar ',' spec) [] with
        | error e => simp [Except.toOption, Except.map]
        | ok ports => rw [hp] at key; simp [Except.toOption] at key
      | some ns =>
        rw [ht] at key
        cases hp : parseListLoop (splitOnChar ',' spec) [] with
        | error e => rw [hp] at key; simp [Except.toOption] at key
        | ok ports =>
          rw [hp] at key
          simp only [Except.toOption, Option.map] at key
          have hports : ports = ns := by simpa using key
          subst hports
          have hlen2 : 2 ≤ (splitOnChar ',' spec).length :=
            splitOnChar_length_ge_two ',' spec h2
          have hns : ports.length = (splitOnChar ',' spec).length :=
            tokensExpand_length _ _ ht
          have hpos : ports.length > 0 := by omega
          simp [Except.toOption, Except.map, expandOptions, hpos]
    · by_cases h3 : '-' ∈ spec
      · simp only [if_neg h2, if_pos h3]
        cases hsp : splitOnChar '-' spec with
        | nil => simp [Except.toOption, Except.map]
        | cons a rest =>
          cases rest with
          | nil => simp [Except.toOption, Except.map]
          | cons b rest2 =>
            cases rest2 with
            | cons c rest3 => simp [Except.toOption, Except.map]
            | nil =>
              cases ha : atoi (trimSpace a) with
              | none => simp [grammarNum, ha, Except.toOption, Except.map]
              | some start =>
                simp only [grammarNum, ha, MaxPort]
                by_cases hsb : (start < 1 || start > 65535) = true
                · simp [hsb, Except.toOption, Except.map]
                · simp only [if_neg hsb]
                  cases hb : atoi (trimSpace b) with
                  | none => simp [grammarNum, hb, Except.toOption, Except.map]
                  | some e =>
                    simp only [grammarNum, hb]
                    by_cases heb : (e < 1 || e > 65535) = true
                    · simp [heb, Except.toOption, Except.map]
                    · simp only [if_neg heb]
                      have hmin : (if start > e then e else start) = min start e := by
                        split <;> omega
                      have hmax : (if start > e then start else e) = max start e := by
                        split <;> omega
                      simp [Except.toOption, Except.map, expandOptions, hmin, hmax]
      · simp only [if_neg h2, if_neg h3]
        cases ha : atoi spec with
        | none => simp [grammarNum, ha, Except.toOption, Except.map]
        | some port =>
          simp only [grammarNum, ha, MaxPort]
          by_cases hb : (port < 1 || port > 65535) = true
          · simp [hb, Except.toOption, Except.map]
          · simp only [if_neg hb]
            simp [Except.toOption, Except.map, expandOptions]

/-! ### The standalone port scanner

Source: `scanPortWithContext` and `scanPortsWithRateLimit` in the second
document of `network/net-grab.go` (lines 201-301). -/

/-- `commonServices` map (`network/net-grab.go` second document,
lines 194-199). -/
def commonServices (port : Nat) : Option String :=
  match port with
  | 21 => some "FTP"
  | 22 => some "SSH"
  | 23 => some "Telnet"
  | 25 => some "SMTP"
  | 53 => some "DNS"
  | 80 => some "HTTP"
  | 110 => some "POP3"
  | 143 => some "IMAP"
  | 443 => some "HTTPS"
  | 465 => some "SMTPS"
  | 587 => some "SMTP Submission"
  | 993 => some "IMAPS"
  | 995 => some "POP3S"
  | 3306 => some "MySQL"
  | 3389 => some "RDP"
  | 5432 => some "PostgreSQL"
  | 8080 => some "HTTP-Alt"
  | 8443 => some "HTTPS-Alt"
  | _ => none

/-- Go `int(x)` truncation of a float, toward zero. -/
def goIntTrunc (q : ℚ) : Int :=
  if 0 ≤ q then q.floor else -((-q).floor)

/-- The latency rounding `float64(int(latency*100)) / 100` of
`scanPortWithContext`. -/
def roundTo2 (q : ℚ) : ℚ :=
  (goIntTrunc (q * 100) : ℚ) / 100

/-- The banner captured from the bytes a successful read returned
(`scanPortWithContext`, lines 229-237): absent when the read yielded no
bytes, otherwise the trimmed bytes, truncated to the first 97 plus "..."
when the trimmed string is longer than 100. -/
def bannerField (readBytes : List Char) : Option (List Char) :=
  if readBytes.length > 0 then
    some
      (if (trimSpace readBytes).length > 100
       then (trimSpace readBytes).take 97 ++ "...".data
       else trimSpace readBytes)
  else none

/-- `PortResult` (`network/net-grab.go` second document, lines 177-183).
`Banner = none` models the unset (omitted) field. -/
structure PortResult where
  Port : Nat
  Open : Bool
  Service : Option String := none
  Banner : Option (List Char) := none
  LatencyMs : ℚ
deriving DecidableEq

/-- The per-port external outcomes of one scan run: whether the TCP dial
succeeded, the measured dial latency, whether `SetReadDeadline` succeeded,
and the bytes the banner read returned. -/
structure PortProbeEnv where
  dialOk : Nat → Bool
  latency : Nat → ℚ
  deadlineOk : Nat → Bool
  readBytes : Nat → List Char

/-- `scanPortWithContext` (`network/net-grab.go` second document,
lines 201-243), with the socket outcomes supplied by `env`. -/
def scanPortWithContext (env : PortProbeEnv) (port : Nat) : PortResult :=
  { Port := port
    Open := env.dialOk port
    LatencyMs := roundTo2 (env.latency port)
    Service := if env.dialOk port then commonServices port else none
    Banner :=
      if env.dialOk port then
        if env.deadlineOk port then bannerField (env.readBytes port) else none
      else none }

/-- `ScanResult` (`network/net-grab.go` second document, lines 185-191). -/
structure ScanResult where
  TargetIP : List Char
  OpenPorts : List PortResult
  ClosedPorts : List PortResult
  ScanTime : Int
  PortsScanned : Nat
deriving DecidableEq

/-- `scanPortsWithRateLimit` (`network/net-grab.go` second document,
lines 245-301).  The per-port goroutines finish in an unconstrained order;
`completion` is the order their results come off the result channel (in any
execution a permutation of `ports`), and the open/closed lists are built in
that order, with no sorting. -/
def scanPortsWithRateLimit (ip : List Char) (ports : List Nat)
    (env : PortProbeEnv) (completion : List Nat) (elapsed : Int) : ScanResult :=
  let results := completion.map (scanPortWithContext env)
  { TargetIP := ip
    OpenPorts := results.filter (fun r => r.Open)
    ClosedPorts := results.filter (fun r => !r.Open)
    ScanTime := elapsed
    PortsScanned := ports.length }

/-! ### The host sweep scanner port scan

Source: `Scanner.scanPorts` in `unnamed/part_014` (lines 462-552). -/

/-- `sort.Ints` (ascending).  Insertion sort produces the same list as any
correct sort: the nondecreasing permutation of a list is unique. -/
def sortInts (l : List Nat) : List Nat :=
  l.insertionSort (· ≤ ·)

/-- `Scanner.scanPorts` of `unnamed/part_014`: the open ports are appended
in completion order as the concurrent dials finish, then sorted before
returning (line 550).  `isOpen` is the per-port dial outcome and
`completion` the completion order (a permutation of `portsToScan`). -/
def sweepScanPorts (portsToScan : List Nat) (isOpen : Nat → Bool)
    (completion : List Nat) : List Nat :=
  sortInts (completion.filter isOpen)

/-- C2 counterexample: a completion order in which port 443 finishes before
port 80 (a permutation of the scanned ports, both open) makes the standalone
port scanner emit the open-port list [443, 80], which is not sorted
ascending. -/
theorem c2_completionOrder_counterexample :
    List.Perm [443, 80] [80, 443]
    ∧ ((scanPortsWithRateLimit "203.0.113.5".data [80, 443]
          ⟨fun _ => true, fun _ => 0, fun _ => true, fun _ => []⟩
          [443, 80] 7).OpenPorts.map (fun r => r.Port)) = [443, 80]
    ∧ ¬ List.Sorted (· < ·)
        ((scanPortsWithRateLimit "203.0.113.5".data [80, 443]
          ⟨fun _ => true, fun _ => 0, fun _ => true, fun _ => []⟩
          [443, 80] 7).OpenPorts.map (fun r => r.Port)) := by
  refine ⟨by decide, by decide, ?_⟩
  have h : ((scanPortsWithRateLimit "203.0.113.5".data [80, 443]
          ⟨fun _ => true, fun _ => 0, fun _ => true, fun _ => []⟩
          [443, 80] 7).OpenPorts.map (fun r => r.Port)) = [443, 80] := by decide
  rw [h]
  decide

/-- C2 (amended): the host sweep scanner sorts before returning, so for a
duplicate-free scanned port list its open-port list is strictly ascending
regardless of the completion order; the standalone scanner instead emits
open ports in probe-completion order, unsorted. -/
theorem c2_sortedOpenPorts_amended :
    (∀ (ports : List Nat) (isOpen : Nat → Bool) (completion : List Nat),
        completion.Perm ports → ports.Nodup →
        List.Sorted (· < ·) (sweepScanPorts ports isOpen completion))
    ∧ (∀ (ip : List Char) (ports : List Nat) (env : PortProbeEnv)
        (completion : List Nat) (elapsed : Int),
        ((scanPortsWithRateLimit ip ports env completion elapsed).OpenPorts.map
            (fun r => r.Port))
          = completion.filter env.dialOk) := by
  constructor
  · intro ports isOpen completion hperm hnd
    have hndc : completion.Nodup := (hperm.nodup_iff).mpr hnd
    have hndf : (completion.filter isOpen).Nodup := hndc.filter _
    have hsorted : List.Sorted (· ≤ ·) (sortInts (completion.filter isOpen)) :=
      List.sorted_insertionSort _ _
    have hperm2 : (sortInts (completion.filter isOpen)).Perm
        (completion.filter isOpen) := List.perm_insertionSort _ _
    have hnds : (sortInts (completion.filter isOpen)).Nodup :=
      hperm2.nodup_iff.mpr hndf
    exact hsorted.lt_of_le hnds
  · intro ip ports env completion elapsed
    simp only [scanPortsWithRateLimit, List.filter_map, List.map_map]
    have h1 : ∀ p : Nat, ((fun r => r.Open) ∘ scanPortWithContext env) p
        = env.dialOk p := by
      intro p; simp [scanPortWithContext]
    have h2 : ∀ p : Nat, ((fun r => r.Port) ∘ scanPortWithContext env) p = p := by
      intro p; simp [scanPortWithContext]
    rw [List.filter_congr fun p _ => h1 p]
    rw [List.map_congr_left fun p _ => h2 p]
    simp

/-- C2 witness: the amended sortedness applied to a concrete scan with
completion order [443, 80] over the duplicate-free ports [80, 443]. -/
theorem c2_sortedOpenPorts_witness :
    (List.Perm [443, 80] [80, 443] ∧ List.Nodup [80, 443])
    ∧ List.Sorted (· < ·) (sweepScanPorts [80, 443] (fun _ => true) [443, 80]) :=
  ⟨by decide, c2_sortedOpenPorts_amended.1 [80, 443] (fun _ => true) [443, 80]
      (by decide) (by decide)⟩

/-- C3: every scanned port contributes exactly one result, classified as
open or closed, so the open and closed list lengths add up to the
ports-scanned count; moreover the two lists together are a permutation of
all per-port results. -/
theorem c3_openClosedPartition (ip : List Char) (ports : List Nat)
    (env : PortProbeEnv) (completion : List Nat) (elapsed : Int)
    (hperm : completion.Perm ports) (hne : ports ≠ []) :
    (scanPortsWithRateLimit ip ports env completion elapsed).OpenPorts.length
      + (scanPortsWithRateLimit ip ports env completion elapsed).ClosedPorts.length
      = (scanPortsWithRateLimit ip ports env completion elapsed).PortsScanned
    ∧ ((scanPortsWithRateLimit ip ports env completion elapsed).OpenPorts
        ++ (scanPortsWithRateLimit ip ports env completion elapsed).ClosedPorts).Perm
        (completion.map (scanPortWithContext env)) := by
  constructor
  · simp only [scanPortsWithRateLimit]
    rw [← List.length_eq_length_filter_add]
    simp [hperm.length_eq]
  · simp only [scanPortsWithRateLimit]
    exact List.filter_append_perm _ _

/-- C3 witness: the partition property at a concrete two-port scan. -/
theorem c3_openClosedPartition_witness :
    (List.Perm [443, 80] [80, 443] ∧ [80, 443] ≠ ([] : List Nat))
    ∧ (scanPortsWithRateLimit "127.0.0.1".data [80, 443]
          ⟨fun p => p = 80, fun _ => 1, fun _ => true, fun _ => []⟩
          [443, 80] 3).OpenPorts.length
      + (scanPortsWithRateLimit "127.0.0.1".data [80, 443]
          ⟨fun p => p = 80, fun _ => 1, fun _ => true, fun _ => []⟩
          [443, 80] 3).ClosedPorts.length
      = (scanPortsWithRateLimit "127.0.0.1".data [80, 443]
          ⟨fun p => p = 80, fun _ => 1, fun _ => true, fun _ => []⟩
          [443, 80] 3).PortsScanned :=
  ⟨⟨by decide, by decide⟩,
    (c3_openClosedPartition "127.0.0.1".data [80, 443]
      ⟨fun p => p = 80, fun _ => 1, fun _ => true, fun _ => []⟩
      [443, 80] 3 (by decide) (by decide)).1⟩

/-! ### Host sweep: scanHost

Source: `Scanner.scanHost` in `unnamed/part_014` (lines 283-312), with the
ping statistics, the reverse DNS outcome and the conditional port scan
result as explicit outcome parameters. -/

/-- `PingStats` (`unnamed/part_014`, lines 33-44).  `LastPingTime` is a
wall-clock stamp and is carried as an opaque integer. -/
structure PingStats where
  PacketsSent : Int := 0
  PacketsReceived : Int := 0
  PacketLoss : ℚ := 0
  MinLatency : ℚ := 0
  MaxLatency : ℚ := 0
  AvgLatency : ℚ := 0
  Jitter : ℚ := 0
  LastPingTime : Int := 0
  ErrorMessage : List Char := []
  latencies : List ℚ := []
deriving DecidableEq

/-- `HostInfo` (`unnamed/part_014`, lines 53-61). -/
structure HostInfo where
  IPAddress : List Char
  Hostname : List Char := []
  IsReachable : Bool := false
  PingStats : PingStats
  OpenPorts : List Nat := []
  DNSNames : List (List Char) := []
  ScannedAt : Int
deriving DecidableEq

/-- `strings.TrimSuffix(s, ".")`. -/
def trimSuffixDot (s : List Char) : List Char :=
  if s.getLast? = some '.' then s.dropLast else s

/-- `Scanner.scanHost` (`unnamed/part_014`, lines 283-312).  `pingStats` is
what `detailedPing` returned, `dnsResult` the reverse-DNS outcome (`none`
on lookup error), and `portScanResult` what `Scanner.scanPorts` would
return for this host; the port scan only runs when the host is reachable. -/
def scanHost (ip : List Char) (now : Int) (pingStats : PingStats)
    (dnsResult : Option (List (List Char))) (portScanResult : List Nat) :
    HostInfo :=
  let reachable := pingStats.PacketsReceived > 0
  { IPAddress := ip
    ScannedAt := now
    PingStats := pingStats
    IsReachable := reachable
    DNSNames := dnsResult.getD []
    Hostname :=
      match dnsResult with
      | some (n :: _) => trimSuffixDot n
      | _ => []
    OpenPorts := if reachable then portScanResult else [] }

/-- C4: a swept host record has a populated open-port list only when the
host is reachable; reachability is exactly having received at least one
ping reply, an unreachable host always carries an empty open-port list, and
only a reachable host carries the port-scan result. -/
theorem c4_openPortsOnlyWhenReachable (ip : List Char) (now : Int)
    (pingStats : PingStats) (dnsResult : Option (List (List Char)))
    (portScanResult : List Nat) :
    ((scanHost ip now pingStats dnsResult portScanResult).IsReachable = true
      ↔ 0 < pingStats.PacketsReceived)
    ∧ ((scanHost ip now pingStats dnsResult portScanResult).IsReachable = false →
        (scanHost ip now pingStats dnsResult portScanResult).OpenPorts = [])
    ∧ ((scanHost ip now pingStats dnsResult portScanResult).IsReachable = true →
        (scanHost ip now pingStats dnsResult portScanResult).OpenPorts
          = portScanResult) := by
  refine ⟨?_, ?_, ?_⟩
  · simp [scanHost]
  · intro h
    simp only [scanHost] at h ⊢
    simp only [decide_eq_false_iff_not] at h
    simp [h]
  · intro h
    simp only [scanHost] at h ⊢
    simp only [decide_eq_true_eq] at h
    simp [h]

/-- C4 witness: a host with zero ping replies is unreachable and gets an
empty open-port list even though its port scan would have found port 22. -/
theorem c4_openPortsOnlyWhenReachable_witness :
    (scanHost "203.0.113.7".data 0
        { PacketsSent := 4, PacketsReceived := 0 } none [22]).IsReachable = false
    ∧ (scanHost "203.0.113.7".data 0
        { PacketsSent := 4, PacketsReceived := 0 } none [22]).OpenPorts = [] :=
  ⟨by decide,
    (c4_openPortsOnlyWhenReachable "203.0.113.7".data 0
        { PacketsSent := 4, PacketsReceived := 0 } none [22]).2.1 (by decide)⟩

/-! ### Concurrency ceilings (C9)

Source: `main` of the standalone port scanner (`network/net-grab.go` second
document, lines 369-390) and `Scanner.scanPorts` of `unnamed/part_014`
(lines 483-487). -/

/-- The `maxConcurrent` the standalone scanner derives from its optional
fourth argument (default 100, replaced only by a parseable positive
value). -/
def portscanMaxConcurrentArg (arg : Option (List Char)) : Int :=
  match arg with
  | none => 100
  | some a =>
    match atoi a with
    | some mc => if mc > 0 then mc else 100
    | none => 100

/-- The clamp applied before scanning: above 10000 ports, a caller value
above 500 is reduced to 500. -/
def portscanEffectiveConcurrency (ports : List Int) (maxConcurrent : Int) : Int :=
  if ports.length > 10000 && maxConcurrent > 500 then 500 else maxConcurrent

/-- The sweep scanner port-scan ceiling: 500, reduced to 200 above 10000
ports (`unnamed/part_014`, lines 484-487). -/
def sweepPortScanConcurrency (numPorts : Nat) : Nat :=
  if numPorts > 10000 then 200 else 500

/-- C9: when the expanded specification holds more than 10000 ports, the
standalone scanner's effective concurrency ceiling is at most 500 whatever
the caller passed, and the sweep scanner's fixed ceiling drops to 200. -/
theorem c9_largeScanClamp (ports : List Int) (arg : Option (List Char))
    (h : ports.length > 10000) :
    portscanEffectiveConcurrency ports (portscanMaxConcurrentArg arg) ≤ 500
    ∧ (∀ n : Nat, n > 10000 → sweepPortScanConcurrency n = 200) := by
  constructor
  · unfold portscanEffectiveConcurrency
    split
    · norm_num
    · rename_i hc
      simp only [Bool.and_eq_true, decide_eq_true_eq, not_and] at hc
      have := hc h
      omega
  · intro n hn
    simp [sweepPortScanConcurrency, hn]

/-- C9 witness: a 10001-port specification with a caller ceiling of 1000 is
clamped to at most 500. -/
theorem c9_largeScanClamp_witness :
    (intRange 1 10001).length > 10000
    ∧ portscanEffectiveConcurrency (intRange 1 10001)
        (portscanMaxConcurrentArg (some "1000".data)) ≤ 500 := by
  have hlen : (intRange 1 10001).length = 10001 := by
    rw [intRange, List.length_map, List.length_range]
    decide
  exact ⟨by omega,
    (c9_largeScanClamp (intRange 1 10001) (some "1000".data) (by omega)).1⟩

/-! ### C10: banner capture -/

theorem dropWhile_length_le {α : Type} (p : α → Bool) (l : List α) :
    (l.dropWhile p).length ≤ l.length := by
  induction l with
  | nil => simp
  | cons x tl ih =>
    rw [List.dropWhile_cons]
    split
    · simp only [List.length_cons]
      omega
    · simp

theorem trimSpace_length_le (cs : List Char) :
    (trimSpace cs).length ≤ cs.length := by
  unfold trimSpace
  rw [List.length_reverse]
  calc ((cs.dropWhile isSpaceChar).reverse.dropWhile isSpaceChar).length
      ≤ (cs.dropWhile isSpaceChar).reverse.length := dropWhile_length_le _ _
    _ = (cs.dropWhile isSpaceChar).length := List.length_reverse _
    _ ≤ cs.length := dropWhile_length_le _ _

set_option maxRecDepth 8000 in
/-- C10 counterexample: the claim says any read of more than 100 bytes is
truncated to its first 97 characters plus "...", but a 101-byte read whose
trailing bytes are whitespace is trimmed below the cap first and kept
whole: the banner is "aaa", not the truncated 100-character string. -/
theorem c10_trimmed_counterexample :
    ("aaa".data ++ List.replicate 98 ' ').length > 100
    ∧ bannerField ("aaa".data ++ List.replicate 98 ' ') = some "aaa".data
    ∧ bannerField ("aaa".data ++ List.replicate 98 ' ')
        ≠ some (("aaa".data ++ List.replicate 98 ' ').take 97 ++ "...".data) := by
  refine ⟨by decide, by decide, ?_⟩
  intro h
  have h1 : bannerField ("aaa".data ++ List.replicate 98 ' ') = some "aaa".data := by
    decide
  rw [h1] at h
  exact absurd (Option.some.inj h) (by decide)

/-- C10 (amended): the standalone port scanner banner never exceeds 100
bytes; the read bytes are whitespace-trimmed and, only when the trimmed
string still exceeds 100 bytes, truncated to its first 97 bytes plus "...";
the banner field is absent exactly when the read yields no bytes. -/
theorem c10_bannerTruncation_amended :
    (∀ (env : PortProbeEnv) (port : Nat) (b : List Char),
        (scanPortWithContext env port).Banner = some b → b.length ≤ 100)
    ∧ (∀ r : List Char, (trimSpace r).length > 100 →
        bannerField r = some ((trimSpace r).take 97 ++ "...".data))
    ∧ (∀ r : List Char, bannerField r = none ↔ r = []) := by
  have hlen : ∀ (r b : List Char), bannerField r = some b → b.length ≤ 100 := by
    intro r b h
    unfold bannerField at h
    split at h
    · rw [Option.some.injEq] at h
      subst h
      split
      · rename_i hgt
        rw [List.length_append, List.length_take]
        have : "...".data.length = 3 := by decide
        omega
      · rename_i hle
        omega
    · cases h
  refine ⟨?_, ?_, ?_⟩
  · intro env port b h
    unfold scanPortWithContext at h
    simp only at h
    split at h
    · split at h
      · exact hlen _ _ h
      · cases h
    · cases h
  · intro r hgt
    have hr : r.length > 0 := by
      have := trimSpace_length_le r
      omega
    unfold bannerField
    rw [if_pos (by exact hr)]
    simp only [if_pos hgt]
  · intro r
    unfold bannerField
    constructor
    · intro h
      split at h
      · cases h
      · rename_i hc
        cases r with
        | nil => rfl
        | cons x tl => simp at hc
    · intro h
      subst h
      simp

set_option maxRecDepth 8000 in
/-- C10 witness: the amended truncation rule applied to a 150-byte read of
non-whitespace bytes. -/
theorem c10_bannerTruncation_witness :
    (trimSpace (List.replicate 150 'b')).length > 100
    ∧ bannerField (List.replicate 150 'b')
        = some ((trimSpace (List.replicate 150 'b')).take 97 ++ "...".data) :=
  ⟨by decide, c10_bannerTruncation_amended.2.1 (List.replicate 150 'b') (by decide)⟩

/-! ### A backtracking regex matcher

The traceroute and ping parsers use `regexp.FindStringSubmatch` on fixed
patterns built from literals, the classes `\d`, `\s`, `[0-9.]` and
`[a-zA-Z0-9.-]`, greedy `*`/`+` over those classes, alternation and capture
groups.  The matcher below implements exactly that fragment with the
leftmost-first semantics Go documents: the match starts as early as
possible, and among those a backtracking search (greedy repetition,
left-biased alternation) picks the first success. -/

/-- Capture assignments, most recent capture first. -/
abbrev Caps := List (Nat × List Char)

/-- The text captured by group `i` (empty when the group did not match). -/
def lookupCap (caps : Caps) (i : Nat) : List Char :=
  match caps.find? (fun p => p.1 = i) with
  | some p => p.2
  | none => []

/-- The regex fragment used by the probe parsers. -/
inductive RE where
  | eps : RE
  | lit : Char → RE
  | cls : (Char → Bool) → RE
  | seq : RE → RE → RE
  | alt : RE → RE → RE
  | starCls : (Char → Bool) → RE
  | plusCls : (Char → Bool) → RE
  | group : Nat → RE → RE

/-- Greedy repetition backtracking: try consuming `n`, `n-1`, ..., `minC`
characters of `cs` and continue with `k`. -/
def tryLensDesc {α : Type} (k : List Char → Option α) (cs : List Char)
    (minC : Nat) : Nat → Option α
  | 0 => if minC = 0 then k cs else none
  | n + 1 =>
    match k (cs.drop (n + 1)) with
    | some r => some r
    | none => if minC ≤ n then tryLensDesc k cs minC n else none

/-- The continuation-passing backtracking matcher. -/
def matchRe {α : Type} :
    RE → List Char → Caps → (List Char → Caps → Option α) → Option α
  | .eps, cs, caps, k => k cs caps
  | .lit c, cs, caps, k =>
    match cs with
    | [] => none
    | x :: rest => if x = c then k rest caps else none
  | .cls p, cs, caps, k =>
    match cs with
    | [] => none
    | x :: rest => if p x then k rest caps else none
  | .seq a b, cs, caps, k =>
    matchRe a cs caps (fun cs2 caps2 => matchRe b cs2 caps2 k)
  | .alt a b, cs, caps, k =>
    match matchRe a cs caps k with
    | some r => some r
    | none => matchRe b cs caps k
  | .starCls p, cs, caps, k =>
    tryLensDesc (fun rest => k rest caps) cs 0 (cs.takeWhile p).length
  | .plusCls p, cs, caps, k =>
    tryLensDesc (fun rest => k rest caps) cs 1 (cs.takeWhile p).length
  | .group i a, cs, caps, k =>
    matchRe a cs caps
      (fun rest caps2 => k rest ((i, cs.take (cs.length - rest.length)) :: caps2))

/-- One anchored attempt at the head of `cs`: consumed length and captures
of the first backtracking success. -/
def matchHere (re : RE) (cs : List Char) : Option (Nat × Caps) :=
  matchRe re cs [] (fun rest caps => some (cs.length - rest.length, caps))

/-- Leftmost search: attempt every start position left to right. -/
def findSubFrom (re : RE) : List Char → Option (List Char × Caps)
  | [] =>
    match matchHere re [] with
    | some (n, caps) => some (List.take n [], caps)
    | none => none
  | c :: tl =>
    match matchHere re (c :: tl) with
    | some (n, caps) => some ((c :: tl).take n, caps)
    | none => findSubFrom re tl

/-- `regexp.FindStringSubmatch`: `none` when the pattern matches nowhere,
otherwise the whole match followed by the texts of groups 1..numGroups
(empty for an unmatched group). -/
def findStringSubmatch (re : RE) (numGroups : Nat) (s : List Char) :
    Option (List (List Char)) :=
  match findSubFrom re s with
  | some (whole, caps) =>
    some (whole :: (List.range numGroups).map (fun i => lookupCap caps (i + 1)))
  | none => none

/-- `\d`. -/
def reDigit (c : Char) : Bool := c.isDigit

/-- `\s` in Go regexp: `[\t\n\f\r ]`. -/
def reSpace (c : Char) : Bool :=
  c = '\t' || c = '\n' || c = '\x0c' || c = '\r' || c = ' '

/-- `[\d.]`. -/
def reDigitDot (c : Char) : Bool := c.isDigit || c = '.'

/-- `[a-zA-Z0-9.-]`. -/
def reHostChar (c : Char) : Bool := c.isAlphanum || c = '.' || c = '-'

/-- A literal string as a regex. -/
def reStr (s : String) : RE :=
  s.data.foldr (fun c acc => RE.seq (RE.lit c) acc) RE.eps

/-- Sequencing of a pattern list. -/
def reSeqs (l : List RE) : RE :=
  l.foldr RE.seq RE.eps

/-- `\d+\.\d+`. -/
def reFloat : RE :=
  reSeqs [RE.plusCls reDigit, RE.lit '.', RE.plusCls reDigit]

/-- `\d+\.\d+\.\d+\.\d+`. -/
def reIPv4 : RE :=
  reSeqs [RE.plusCls reDigit, RE.lit '.', RE.plusCls reDigit, RE.lit '.',
          RE.plusCls reDigit, RE.lit '.', RE.plusCls reDigit]

/-! ### Traceroute parsing

Source: `network/traceroute.go`.  The platform dispatch is resolved to the
Linux/Darwin branch (`parseLinuxTracerouteLine` is defined as
`parseDarwinTracerouteLine`, line 306). -/

/-- The hop-line pattern of `parseDarwinTracerouteLine`
(`network/traceroute.go`, line 241). -/
def darwinMainRE : RE :=
  reSeqs
    [RE.starCls reSpace,
     RE.group 1 (RE.plusCls reDigit),
     RE.plusCls reSpace,
     RE.alt
       (reSeqs [RE.group 2 (RE.plusCls reHostChar), RE.plusCls reSpace,
                RE.lit '(', RE.group 3 reIPv4, RE.lit ')'])
       (RE.lit '*'),
     RE.plusCls reSpace,
     RE.alt
       (reSeqs [RE.group 4 reFloat, RE.plusCls reSpace, reStr "ms",
                RE.plusCls reSpace, RE.group 5 reFloat, RE.plusCls reSpace,
                reStr "ms", RE.plusCls reSpace, RE.group 6 reFloat,
                RE.plusCls reSpace, reStr "ms"])
       (reSeqs [RE.lit '*', RE.plusCls reSpace, RE.lit '*',
                RE.plusCls reSpace, RE.lit '*'])]

/-- The all-asterisk fallback pattern (`network/traceroute.go`, line 246). -/
def asteriskRE : RE :=
  reSeqs [RE.starCls reSpace, RE.group 1 (RE.plusCls reDigit),
          RE.plusCls reSpace, reStr "* * *"]

/-- `HopResult` (`network/traceroute.go`, lines 17-25; zero values as in
Go). -/
structure HopResult where
  HopNumber : Int := 0
  Address : List Char := []
  Hostname : List Char := []
  RTT : ℚ := 0
  LossRate : ℚ := 0
  TimedOut : Bool := false
  AllRTTs : List ℚ := []
deriving DecidableEq

/-- The RTT-collection loop over submatches 4..6
(`network/traceroute.go`, lines 275-283): a nonempty capture whose
`ParseFloat` succeeds is appended. -/
def collectRtts (m : List (List Char)) : List ℚ :=
  [4, 5, 6].foldl
    (fun acc i =>
      let s := m.getD i []
      if s ≠ [] then
        match parseFloatQ s with
        | some r => acc ++ [r]
        | none => acc
      else acc) []

/-- `parseDarwinTracerouteLine` (`network/traceroute.go`, lines 233-301). -/
def parseDarwinTracerouteLine (line : List Char) : HopResult :=
  match findStringSubmatch darwinMainRE 6 line with
  | none =>
    match findStringSubmatch asteriskRE 1 line with
    | some am =>
      { HopNumber := atoiLossy (am.getD 1 []), TimedOut := true, LossRate := 100 }
    | none => {}
  | some m =>
    let rtts := collectRtts m
    let base : HopResult :=
      { HopNumber := atoiLossy (m.getD 1 [])
        TimedOut := '*' ∈ line
        Hostname := m.getD 2 []
        Address := m.getD 3 [] }
    if rtts.length > 0 then
      { base with
        RTT := rtts.sum / (rtts.length : ℚ)
        AllRTTs := rtts
        LossRate := (3 - (rtts.length : ℚ)) / 3 * 100 }
    else if base.TimedOut then { base with LossRate := 100 }
    else base

/-- The lines the `parseTracerouteOutput` loop actually parses: everything
after the header line, blank lines skipped (`network/traceroute.go`,
lines 140-147). -/
def tracerouteLines (output : List Char) : List (List Char) :=
  ((splitOnChar '\n' output).drop 1).filter (fun l => !(trimSpace l).isEmpty)

/-- `parseTracerouteOutput` (`network/traceroute.go`, lines 136-167): skip
the header line and blank lines, parse each remaining line, keep the hops
with a positive hop number, in line order. -/
def parseTracerouteOutput (output : List Char) : List HopResult :=
  ((tracerouteLines output).map parseDarwinTracerouteLine).filter
    (fun h => h.HopNumber > 0)

/-- `TracerouteResult` (`network/traceroute.go`, lines 27-35). -/
structure TracerouteResult where
  TargetIP : List Char
  TargetName : List Char := []
  Hops : List HopResult := []
  Success : Bool := false
  TotalHops : Nat := 0
  ElapsedTime : Int := 0
  Error : List Char := []
deriving DecidableEq

/-- The result construction of `runTraceroute`
(`network/traceroute.go`, lines 89-133): `cmdFailed` is whether the
traceroute subprocess returned an error (with `errText` its message),
`output` its combined output, `targetName` the reverse-DNS name of the
target.  On a command error the success flag is
`len(hops) > 0 && len(hops) < maxHops`; otherwise it is whether the last
hop reached the target or did not time out. -/
def runTracerouteResult (targetIP : List Char) (maxHops : Int)
    (cmdFailed : Bool) (errText : List Char) (output : List Char)
    (elapsed : Int) (targetName : List Char) : TracerouteResult :=
  let hops := parseTracerouteOutput output
  if cmdFailed then
    { TargetIP := targetIP, TargetName := targetName, ElapsedTime := elapsed
      Error := "Traceroute error: ".data ++ errText
      Hops := hops, TotalHops := hops.length
      Success := hops.length > 0 && (hops.length : Int) < maxHops }
  else
    { TargetIP := targetIP, TargetName := targetName, ElapsedTime := elapsed
      Hops := hops, TotalHops := hops.length
      Success :=
        match hops.getLast? with
        | some lastHop => lastHop.Address = targetIP || !lastHop.TimedOut
        | none => false }

/-! ### C5: hop-sequence contiguity -/

/-- Hop indices form the contiguous ascending sequence 1..n. -/
def contiguousFrom1 (hops : List HopResult) : Prop :=
  hops.map (fun h => h.HopNumber)
    = (List.range' 1 hops.length).map (fun n => Int.ofNat n)

/-- If every selected transcript line parses to the next hop index, the
parser emits exactly those indices in order. -/
theorem hopMapFilter (f : List Char -> HopResult) (ls : List (List Char)) :
    forall start : Nat,
      (forall i (hi : i < ls.length),
          (f (ls.get (Fin.mk i hi))).HopNumber = Int.ofNat (start + i + 1)) ->
      ((ls.map f).filter (fun h => h.HopNumber > 0)).map (fun h => h.HopNumber)
        = (List.range' (start + 1) ls.length).map (fun n => Int.ofNat n) := by
  induction ls with
  | nil => intro start h; simp
  | cons a tl ih =>
    intro start h
    have h0 : (f a).HopNumber = Int.ofNat (start + 1) := by
      have := h 0 (by simp)
      simpa using this
    have hpos : ((f a).HopNumber > 0) := by
      rw [h0]
      exact Int.ofNat_pos.mpr (Nat.succ_pos start)
    have htl := ih (start + 1) (fun i hi => by
      have hlt : i + 1 < (a :: tl).length := by simpa using Nat.succ_lt_succ hi
      have := h (i + 1) hlt
      have hg : (a :: tl).get (Fin.mk (i + 1) hlt) = tl.get (Fin.mk i hi) := rfl
      rw [hg] at this
      rw [this]
      congr 1
      omega)
    simp only [List.map_cons, List.filter_cons, List.length_cons]
    rw [if_pos (by simpa using hpos)]
    rw [List.range'_succ]
    simp only [List.map_cons]
    rw [h0, htl]

set_option maxRecDepth 8000 in
/-- C5 counterexample: a transcript whose second data line carries hop
index 3 (for instance because the hop-2 line did not match any pattern and
was dropped) parses to the hop indices [1, 3]: the emitted sequence is not
contiguous from 1, yet both records are kept as printed. -/
theorem c5_gap_counterexample :
    (parseTracerouteOutput ("traceroute to 10.0.0.9 (10.0.0.9), 30 hops max\n" ++
        " 1  gw (10.0.0.1)  1.5 ms  1.5 ms  1.5 ms\n" ++
        " 3  r3 (10.0.0.3)  2.5 ms  2.5 ms  2.5 ms\n").data).map
        (fun h => h.HopNumber) = [1, 3]
    ∧ ¬ contiguousFrom1 (parseTracerouteOutput
        ("traceroute to 10.0.0.9 (10.0.0.9), 30 hops max\n" ++
        " 1  gw (10.0.0.1)  1.5 ms  1.5 ms  1.5 ms\n" ++
        " 3  r3 (10.0.0.3)  2.5 ms  2.5 ms  2.5 ms\n").data) := by
  constructor
  · decide
  · unfold contiguousFrom1
    decide

/-- C5 (amended): the parser emits hop records carrying exactly the indices
printed on the parseable transcript lines, in transcript order: whenever the
selected lines (header dropped, blanks skipped) parse to the successive
indices 1..n, the emitted sequence is contiguous from 1 — and a line whose
hop failed to parse or carries an out-of-order index leaves a gap.  A hop
line whose probes all timed out still parses, via the asterisk fallback
pattern, into a record with TimedOut = true and LossRate = 100 rather than
being dropped. -/
theorem c5_contiguity_amended :
    (∀ output : List Char,
      (∀ i (hi : i < (tracerouteLines output).length),
          (parseDarwinTracerouteLine
              ((tracerouteLines output).get (Fin.mk i hi))).HopNumber
            = Int.ofNat (i + 1)) →
      (parseTracerouteOutput output).map (fun h => h.HopNumber)
        = (List.range' 1 (tracerouteLines output).length).map
            (fun n => Int.ofNat n))
    ∧ parseDarwinTracerouteLine " 3  * * *".data
        = { HopNumber := 3, TimedOut := true, LossRate := 100 } := by
  constructor
  · intro output h
    unfold parseTracerouteOutput
    exact hopMapFilter parseDarwinTracerouteLine (tracerouteLines output) 0
      (fun i hi => by simpa using h i hi)
  · decide

set_option maxRecDepth 8000 in
/-- C5 witness: a three-hop transcript whose middle hop timed out; every
selected line parses to the next index, and the emitted sequence is 1, 2,
3. -/
theorem c5_contiguity_witness :
    (∀ i (hi : i < (tracerouteLines
          ("traceroute to 10.0.0.9 (10.0.0.9), 30 hops max\n" ++
           " 1  gw (10.0.0.1)  1.5 ms  1.5 ms  1.5 ms\n" ++
           " 2  * * *\n" ++
           " 3  h9 (10.0.0.9)  2.5 ms  2.5 ms  2.5 ms\n").data).length),
        (parseDarwinTracerouteLine
            ((tracerouteLines
              ("traceroute to 10.0.0.9 (10.0.0.9), 30 hops max\n" ++
               " 1  gw (10.0.0.1)  1.5 ms  1.5 ms  1.5 ms\n" ++
               " 2  * * *\n" ++
               " 3  h9 (10.0.0.9)  2.5 ms  2.5 ms  2.5 ms\n").data).get
              (Fin.mk i hi))).HopNumber = Int.ofNat (i + 1))
    ∧ (parseTracerouteOutput
          ("traceroute to 10.0.0.9 (10.0.0.9), 30 hops max\n" ++
           " 1  gw (10.0.0.1)  1.5 ms  1.5 ms  1.5 ms\n" ++
           " 2  * * *\n" ++
           " 3  h9 (10.0.0.9)  2.5 ms  2.5 ms  2.5 ms\n").data).map
          (fun h => h.HopNumber)
        = (List.range' 1 (tracerouteLines
            ("traceroute to 10.0.0.9 (10.0.0.9), 30 hops max\n" ++
             " 1  gw (10.0.0.1)  1.5 ms  1.5 ms  1.5 ms\n" ++
             " 2  * * *\n" ++
             " 3  h9 (10.0.0.9)  2.5 ms  2.5 ms  2.5 ms\n").data).length).map
            (fun n => Int.ofNat n) :=
  ⟨by decide, c5_contiguity_amended.1
    ("traceroute to 10.0.0.9 (10.0.0.9), 30 hops max\n" ++
     " 1  gw (10.0.0.1)  1.5 ms  1.5 ms  1.5 ms\n" ++
     " 2  * * *\n" ++
     " 3  h9 (10.0.0.9)  2.5 ms  2.5 ms  2.5 ms\n").data (by decide)⟩

/-! ### C6: traceroute success flag -/

/-- The success heuristic the claim states: the last hop reached the
resolved target, or the last hop did not time out (false when there are no
hops). -/
def lastHopRule (hops : List HopResult) (targetIP : List Char) : Bool :=
  match hops.getLast? with
  | some lastHop => lastHop.Address = targetIP || !lastHop.TimedOut
  | none => false

set_option maxRecDepth 8000 in
/-- C6 counterexample: a run whose traceroute subprocess exited with an
error and whose transcript holds a single all-timeout hop.  The parsed hop
list is nonempty, the last hop timed out and its address is not the target,
so the claimed rule says failure — but the code, in the command-error
branch, declares success because 0 < 1 hop < 30 max hops. -/
theorem c6_errorBranch_counterexample :
    (runTracerouteResult "10.9.9.9".data 30 true "exit status 1".data
        ("traceroute to 10.9.9.9 (10.9.9.9), 30 hops max\n 1  * * *\n").data
        5 []).Hops ≠ []
    ∧ (runTracerouteResult "10.9.9.9".data 30 true "exit status 1".data
        ("traceroute to 10.9.9.9 (10.9.9.9), 30 hops max\n 1  * * *\n").data
        5 []).Success = true
    ∧ lastHopRule
        (runTracerouteResult "10.9.9.9".data 30 true "exit status 1".data
          ("traceroute to 10.9.9.9 (10.9.9.9), 30 hops max\n 1  * * *\n").data
          5 []).Hops "10.9.9.9".data = false := by
  refine ⟨?_, by decide, by decide⟩
  intro h
  have h1 : (runTracerouteResult "10.9.9.9".data 30 true "exit status 1".data
      ("traceroute to 10.9.9.9 (10.9.9.9), 30 hops max\n 1  * * *\n").data
      5 []).Hops.length = 1 := by decide
  rw [h] at h1
  cases h1

/-- C6 (amended): the claimed success rule holds exactly for runs whose
traceroute subprocess exited cleanly: there the success flag equals the
last-hop rule (last hop address equals the resolved target, or last hop
not timed out).  When the subprocess returned an error, the flag is instead
`0 < hops ∧ hops < maxHops`. -/
theorem c6_successRule_amended (targetIP : List Char) (maxHops : Int)
    (errText output : List Char) (elapsed : Int) (targetName : List Char) :
    ((runTracerouteResult targetIP maxHops false errText output elapsed
        targetName).Success
      = lastHopRule (parseTracerouteOutput output) targetIP)
    ∧ ((runTracerouteResult targetIP maxHops true errText output elapsed
        targetName).Success
      = ((parseTracerouteOutput output).length > 0
          && ((parseTracerouteOutput output).length : Int) < maxHops)) := by
  constructor
  · simp [runTracerouteResult, lastHopRule]
  · simp [runTracerouteResult]

/-! ### Ping output parsing

Source: `detailedPing`, `parsePingOutput`, `calculateLatencyStats` and
`calculateJitter` in `unnamed/part_014` (lines 323-460). -/

/-- The packet summary pattern
`(\d+) packets transmitted, (\d+) received, ([\d.]+)% packet loss`
(`unnamed/part_014`, line 383). -/
def packetStatsRE : RE :=
  reSeqs [RE.group 1 (RE.plusCls reDigit), reStr " packets transmitted, ",
          RE.group 2 (RE.plusCls reDigit), reStr " received, ",
          RE.group 3 (RE.plusCls reDigitDot), reStr "% packet loss"]

/-- The latency summary pattern
`min/avg/max/mdev = ([\d.]+)/([\d.]+)/([\d.]+)/([\d.]+) ms`
(`unnamed/part_014`, line 392). -/
def latencyStatsRE : RE :=
  reSeqs [reStr "min/avg/max/mdev = ", RE.group 1 (RE.plusCls reDigitDot),
          RE.lit '/', RE.group 2 (RE.plusCls reDigitDot), RE.lit '/',
          RE.group 3 (RE.plusCls reDigitDot), RE.lit '/',
          RE.group 4 (RE.plusCls reDigitDot), reStr " ms"]

/-- The per-reply pattern `time=([\d.]+) ms` (`unnamed/part_014`,
line 403). -/
def pingLineRE : RE :=
  reSeqs [reStr "time=", RE.group 1 (RE.plusCls reDigitDot), reStr " ms"]

/-- The individual RTT samples extracted line by line
(`unnamed/part_014`, lines 403-410). -/
def pingLatencies (output : List Char) : List ℚ :=
  (splitOnChar '\n' output).filterMap
    (fun line =>
      (findStringSubmatch pingLineRE 1 line).map
        (fun m => parseFloatLossy (m.getD 1 [])))

/-- The running-minimum step `if lat < min { min = lat }`. -/
def goMinStep (m lat : ℚ) : ℚ := if lat < m then lat else m

/-- The running-maximum step `if lat > max { max = lat }`. -/
def goMaxStep (m lat : ℚ) : ℚ := if lat > m then lat else m

/-- `calculateLatencyStats` (`unnamed/part_014`, lines 427-447). -/
def calculateLatencyStats (latencies : List ℚ) (stats : PingStats) : PingStats :=
  match latencies with
  | [] => stats
  | l0 :: rest =>
    { stats with
      MinLatency := rest.foldl goMinStep l0
      MaxLatency := rest.foldl goMaxStep l0
      AvgLatency := (l0 + rest.sum) / ((rest.length + 1 : Nat) : ℚ) }

/-- The absolute differences of consecutive samples, in order (the values
summed by the `calculateJitter` loop, `unnamed/part_014`, lines 454-457). -/
def absDiffs : List ℚ → List ℚ
  | a :: b :: rest => |b - a| :: absDiffs (b :: rest)
  | _ => []

/-- `calculateJitter` (`unnamed/part_014`, lines 449-460). -/
def calculateJitter (latencies : List ℚ) : ℚ :=
  if latencies.length < 2 then 0
  else (absDiffs latencies).sum / ((latencies.length - 1 : Nat) : ℚ)

/-- The statistics record `detailedPing` initialises before parsing
(`unnamed/part_014`, lines 337-340). -/
def initPingStats (count : Int) (now : Int) : PingStats :=
  { PacketsSent := count, LastPingTime := now }

/-- The packet-summary update of `parsePingOutput`
(`unnamed/part_014`, lines 383-389). -/
def pingSummaryStep (output : List Char) (stats0 : PingStats) : PingStats :=
  match findStringSubmatch packetStatsRE 3 output with
  | some m =>
    { stats0 with
      PacketsSent := atoiLossy (m.getD 1 [])
      PacketsReceived := atoiLossy (m.getD 2 [])
      PacketLoss := parseFloatLossy (m.getD 3 []) }
  | none => stats0

/-- The latency-summary update of `parsePingOutput`
(`unnamed/part_014`, lines 392-400). -/
def pingRttLineStep (output : List Char) (s1 : PingStats) : PingStats :=
  match findStringSubmatch latencyStatsRE 4 output with
  | some m =>
    { s1 with
      MinLatency := parseFloatLossy (m.getD 1 [])
      AvgLatency := parseFloatLossy (m.getD 2 [])
      MaxLatency := parseFloatLossy (m.getD 3 [])
      Jitter := parseFloatLossy (m.getD 4 []) }
  | none => s1

/-- The sample-based fallback of `parsePingOutput`
(`unnamed/part_014`, lines 412-421): when samples exist but the summary
left the received count at zero, derive the count, the loss percentage and
(if min, max and avg are all still zero) the latency statistics from the
samples. -/
def pingFallbackStep (latencies : List ℚ) (s2 : PingStats) : PingStats :=
  if latencies.length > 0 ∧ s2.PacketsReceived = 0 then
    let s :=
      { s2 with
        PacketsReceived := (latencies.length : Int)
        PacketLoss :=
          ((s2.PacketsSent - (latencies.length : Int) : Int) : ℚ)
            / ((s2.PacketsSent : Int) : ℚ) * 100 }
    if s.MinLatency = 0 ∧ s.MaxLatency = 0 ∧ s.AvgLatency = 0 then
      calculateLatencyStats latencies s
    else s
  else s2

/-- `parsePingOutput` (`unnamed/part_014`, lines 378-425), as a function
from the previous statistics record to the updated one. -/
def parsePingOutput (output : List Char) (stats0 : PingStats) : PingStats :=
  { pingFallbackStep (pingLatencies output)
      (pingRttLineStep output (pingSummaryStep output stats0)) with
    latencies := pingLatencies output }

/-- The jitter recomputation `detailedPing` performs after parsing when at
least two samples came back (`unnamed/part_014`, lines 370-373). -/
def detailedPingJitterStep (stats : PingStats) : PingStats :=
  if stats.latencies.length ≥ 2 then
    { stats with Jitter := calculateJitter stats.latencies }
  else stats

/-! ### C7 lemmas -/

theorem absDiffs_length (l : List ℚ) : (absDiffs l).length = l.length - 1 := by
  induction l with
  | nil => simp [absDiffs]
  | cons a tl ih =>
    cases tl with
    | nil => simp [absDiffs]
    | cons b rest =>
      simp only [absDiffs, List.length_cons] at *
      omega

theorem foldlMin_mem (l : List ℚ) : ∀ m : ℚ, l.foldl goMinStep m ∈ m :: l := by
  induction l with
  | nil => intro m; simp
  | cons a tl ih =>
    intro m
    simp only [List.foldl_cons]
    rcases List.mem_cons.mp (ih (goMinStep m a)) with h | h
    · rw [h]
      unfold goMinStep
      split <;> simp
    · simp [h]

theorem foldlMin_le (l : List ℚ) :
    ∀ m x : ℚ, x ∈ m :: l → l.foldl goMinStep m ≤ x := by
  induction l with
  | nil =>
    intro m x hx
    have : x = m := by simpa using hx
    simp [this]
  | cons a tl ih =>
    intro m x hx
    simp only [List.foldl_cons]
    have hstep_m : goMinStep m a ≤ m := by
      unfold goMinStep; split
      · linarith
      · exact le_refl m
    have hstep_a : goMinStep m a ≤ a := by
      unfold goMinStep; split
      · exact le_refl a
      · exact le_of_not_lt (by assumption)
    have hself : tl.foldl goMinStep (goMinStep m a) ≤ goMinStep m a :=
      ih (goMinStep m a) (goMinStep m a) (List.mem_cons_self _ _)
    rcases List.mem_cons.mp hx with h | h
    · rw [h]; exact le_trans hself hstep_m
    · rcases List.mem_cons.mp h with h2 | h2
      · rw [h2]; exact le_trans hself hstep_a
      · exact ih (goMinStep m a) x (List.mem_cons_of_mem _ h2)

theorem foldlMax_mem (l : List ℚ) : ∀ m : ℚ, l.foldl goMaxStep m ∈ m :: l := by
  induction l with
  | nil => intro m; simp
  | cons a tl ih =>
    intro m
    simp only [List.foldl_cons]
    rcases List.mem_cons.mp (ih (goMaxStep m a)) with h | h
    · rw [h]
      unfold goMaxStep
      split <;> simp
    · simp [h]

theorem foldlMax_ge (l : List ℚ) :
    ∀ m x : ℚ, x ∈ m :: l → x ≤ l.foldl goMaxStep m := by
  induction l with
  | nil =>
    intro m x hx
    have : x = m := by simpa using hx
    simp [this]
  | cons a tl ih =>
    intro m x hx
    simp only [List.foldl_cons]
    have hstep_m : m ≤ goMaxStep m a := by
      unfold goMaxStep; split
      · linarith
      · exact le_refl m
    have hstep_a : a ≤ goMaxStep m a := by
      unfold goMaxStep; split
      · exact le_refl a
      · exact le_of_not_lt (by assumption)
    have hself : goMaxStep m a ≤ tl.foldl goMaxStep (goMaxStep m a) :=
      ih (goMaxStep m a) (goMaxStep m a) (List.mem_cons_self _ _)
    rcases List.mem_cons.mp hx with h | h
    · rw [h]; exact le_trans hstep_m hself
    · rcases List.mem_cons.mp h with h2 | h2
      · rw [h2]; exact le_trans hstep_a hself
      · exact ih (goMaxStep m a) x (List.mem_cons_of_mem _ h2)

theorem calcLatencyStats_counts (l : List ℚ) (s : PingStats) :
    (calculateLatencyStats l s).PacketsReceived = s.PacketsReceived
    ∧ (calculateLatencyStats l s).PacketLoss = s.PacketLoss
    ∧ (calculateLatencyStats l s).PacketsSent = s.PacketsSent := by
  cases l <;> simp [calculateLatencyStats]

theorem pingRttLineStep_counts (output : List Char) (s : PingStats) :
    (pingRttLineStep output s).PacketsReceived = s.PacketsReceived
    ∧ (pingRttLineStep output s).PacketsSent = s.PacketsSent := by
  unfold pingRttLineStep
  cases findStringSubmatch latencyStatsRE 4 output <;> simp

/-- C7: when the packet summary line is unparseable but RTT samples appear,
the parser derives the received count as the number of samples and the loss
as (sent - received)/sent x 100; when the latency summary line is also
unparseable, min, avg and max are derived from the samples (minimum,
mean, maximum); and for at least two samples the jitter is the mean of the
absolute differences of consecutive samples. -/
theorem c7_pingFallback (output : List Char) (stats0 : PingStats)
    (hrecv : stats0.PacketsReceived = 0) (hmin : stats0.MinLatency = 0)
    (hmax : stats0.MaxLatency = 0) (havg : stats0.AvgLatency = 0)
    (hsum : findStringSubmatch packetStatsRE 3 output = none)
    (hlat : pingLatencies output ≠ []) :
    ((parsePingOutput output stats0).PacketsReceived
        = ((pingLatencies output).length : Int))
    ∧ ((parsePingOutput output stats0).PacketLoss
        = ((stats0.PacketsSent - ((pingLatencies output).length : Int) : Int) : ℚ)
            / ((stats0.PacketsSent : Int) : ℚ) * 100)
    ∧ (findStringSubmatch latencyStatsRE 4 output = none →
        ((parsePingOutput output stats0).MinLatency ∈ pingLatencies output
          ∧ ∀ x ∈ pingLatencies output,
              (parsePingOutput output stats0).MinLatency ≤ x)
        ∧ ((parsePingOutput output stats0).MaxLatency ∈ pingLatencies output
          ∧ ∀ x ∈ pingLatencies output,
              x ≤ (parsePingOutput output stats0).MaxLatency)
        ∧ (parsePingOutput output stats0).AvgLatency
            = (pingLatencies output).sum / ((pingLatencies output).length : ℚ))
    ∧ (∀ l : List ℚ, 2 ≤ l.length →
        calculateJitter l
          = (absDiffs l).sum / ((absDiffs l).length : ℚ)) := by
  have hs1 : pingSummaryStep output stats0 = stats0 := by
    unfold pingSummaryStep; rw [hsum]
  have hlen0 : (pingLatencies output).length > 0 := List.length_pos.mpr hlat
  have hrecv2 : (pingRttLineStep output stats0).PacketsReceived = 0 := by
    rw [(pingRttLineStep_counts output stats0).1, hrecv]
  have hsent2 : (pingRttLineStep output stats0).PacketsSent = stats0.PacketsSent :=
    (pingRttLineStep_counts output stats0).2
  have hcond : (pingLatencies output).length > 0
      ∧ (pingRttLineStep output stats0).PacketsReceived = 0 := ⟨hlen0, hrecv2⟩
  have hparse : parsePingOutput output stats0
      = { pingFallbackStep (pingLatencies output) (pingRttLineStep output stats0)
          with latencies := pingLatencies output } := by
    unfold parsePingOutput; rw [hs1]
  have hfb : (pingFallbackStep (pingLatencies output)
        (pingRttLineStep output stats0)).PacketsReceived
          = ((pingLatencies output).length : Int)
      ∧ (pingFallbackStep (pingLatencies output)
          (pingRttLineStep output stats0)).PacketLoss
          = ((stats0.PacketsSent - ((pingLatencies output).length : Int) : Int) : ℚ)
              / ((stats0.PacketsSent : Int) : ℚ) * 100 := by
    unfold pingFallbackStep
    rw [if_pos hcond]
    simp only []
    split
    · rw [(calcLatencyStats_counts _ _).1, (calcLatencyStats_counts _ _).2.1]
      simp [hsent2]
    · simp [hsent2]
  refine ⟨?_, ?_, ?_, ?_⟩
  · rw [hparse]; exact hfb.1
  · rw [hparse]; exact hfb.2
  · intro hlm
    have hs2eq : pingRttLineStep output stats0 = stats0 := by
      unfold pingRttLineStep; rw [hlm]
    rw [hparse, hs2eq]
    cases hshape : pingLatencies output with
    | nil => exact absurd hshape hlat
    | cons l0 rest =>
      have hcond0 : (l0 :: rest).length > 0 ∧ stats0.PacketsReceived = 0 :=
        ⟨by simp, hrecv⟩
      unfold pingFallbackStep
      rw [if_pos hcond0]
      simp only []
      rw [if_pos (by simp [hmin, hmax, havg])]
      unfold calculateLatencyStats
      simp only []
      refine ⟨⟨?_, ?_⟩, ⟨?_, ?_⟩, ?_⟩
      · simpa using foldlMin_mem rest l0
      · intro x hx
        simpa using foldlMin_le rest l0 x (by simpa using hx)
      · simpa using foldlMax_mem rest l0
      · intro x hx
        simpa using foldlMax_ge rest l0 x (by simpa using hx)
      · simp [List.sum_cons]
  · intro l hl
    unfold calculateJitter
    rw [if_neg (by omega)]
    congr 1
    rw [absDiffs_length l]

set_option maxRecDepth 8000 in
/-- C7 witness: a transcript with two RTT samples and no parseable summary
line; the derived received count is the sample count. -/
theorem c7_pingFallback_witness :
    (findStringSubmatch packetStatsRE 3
        ("PING 10.0.0.1\n64 bytes: icmp_seq=1 ttl=64 time=3.0 ms\n" ++
         "64 bytes: icmp_seq=2 ttl=64 time=1.0 ms\n").data = none
      ∧ pingLatencies
          ("PING 10.0.0.1\n64 bytes: icmp_seq=1 ttl=64 time=3.0 ms\n" ++
           "64 bytes: icmp_seq=2 ttl=64 time=1.0 ms\n").data ≠ [])
    ∧ (parsePingOutput
        ("PING 10.0.0.1\n64 bytes: icmp_seq=1 ttl=64 time=3.0 ms\n" ++
         "64 bytes: icmp_seq=2 ttl=64 time=1.0 ms\n").data
        (initPingStats 4 0)).PacketsReceived
      = ((pingLatencies
          ("PING 10.0.0.1\n64 bytes: icmp_seq=1 ttl=64 time=3.0 ms\n" ++
           "64 bytes: icmp_seq=2 ttl=64 time=1.0 ms\n").data).length : Int) :=
  ⟨⟨by decide, by decide⟩,
    (c7_pingFallback
      ("PING 10.0.0.1\n64 bytes: icmp_seq=1 ttl=64 time=3.0 ms\n" ++
       "64 bytes: icmp_seq=2 ttl=64 time=1.0 ms\n").data
      (initPingStats 4 0) (by decide) (by decide) (by decide) (by decide)
      (by decide) (by decide)).1⟩

/-! ### Reachability prober

Source: `network/connectivity.go`.  The external outcomes (subprocess
error, dial error, write error) are explicit parameters: dial and
subprocess failures of every kind (DNS resolution, refusal, timeout,
missing binary) reach the code as a non-nil Go error carrying a message,
modelled as `some errText`. -/

/-- `ConnectivityResult` (`network/connectivity.go`, lines 16-29). -/
structure ConnectivityResult where
  Success : Bool
  Message : List Char
  TargetIP : List Char
  Port : Int := 0
  Mode : List Char
  ResponseTime : Int := 0
  PacketLoss : Int := 0
  RTTMin : ℚ := 0
  RTTAvg : ℚ := 0
  RTTMax : ℚ := 0
deriving DecidableEq

/-- `checkPing` (`network/connectivity.go`, lines 65-115): `cmdFailed` is
whether the bounded ping subprocess returned an error, `elapsed` the
measured wall time, `scannedLoss` what the `Sscanf` extraction of the loss
percentage produced (0 when nothing matched). -/
def checkPing (targetIP : List Char) (cmdFailed : Bool) (elapsed : Int)
    (scannedLoss : Int) : ConnectivityResult :=
  if cmdFailed then
    { Success := false
      Message := "Could not reach ".data ++ targetIP
      TargetIP := targetIP
      Mode := "ping".data
      ResponseTime := 0 }
  else
    { Success := true
      Message := "Successfully reached ".data ++ targetIP ++ " in ".data
        ++ intToChars elapsed ++ "ms".data
      TargetIP := targetIP
      Mode := "ping".data
      ResponseTime := elapsed
      PacketLoss := scannedLoss }

/-- `checkTcpPort` (`network/connectivity.go`, lines 117-149): `dialErr` is
the dial outcome (`some errText` on any dial failure). -/
def checkTcpPort (targetIP : List Char) (port : Int) (dialErr : Option (List Char))
    (elapsed : Int) : ConnectivityResult :=
  match dialErr with
  | some errText =>
    { Success := false
      Message := "Could not connect to ".data ++ targetIP ++ ":".data
        ++ intToChars port ++ " - ".data ++ errText
      TargetIP := targetIP
      Port := port
      Mode := "tcp".data
      ResponseTime := 0 }
  | none =>
    { Success := true
      Message := "Successfully connected to ".data ++ targetIP ++ ":".data
        ++ intToChars port ++ " in ".data ++ intToChars elapsed ++ "ms".data
      TargetIP := targetIP
      Port := port
      Mode := "tcp".data
      ResponseTime := elapsed }

/-- `checkUdpPort` (`network/connectivity.go`, lines 151-195): `dialErr` is
the connectionless dial outcome, `writeFailed` whether the best-effort
datagram write returned an error. -/
def checkUdpPort (targetIP : List Char) (port : Int) (dialErr : Option (List Char))
    (writeFailed : Bool) (elapsed : Int) : ConnectivityResult :=
  match dialErr with
  | some errText =>
    { Success := false
      Message := "Could not create UDP connection to ".data ++ targetIP
        ++ ":".data ++ intToChars port ++ " - ".data ++ errText
      TargetIP := targetIP
      Port := port
      Mode := "udp".data
      ResponseTime := 0 }
  | none =>
    { Success := !writeFailed
      Message := "UDP port ".data ++ intToChars port ++ " on ".data ++ targetIP
        ++ " appears ".data
        ++ (if writeFailed then "unreachable".data else "reachable".data)
      TargetIP := targetIP
      Port := port
      Mode := "udp".data
      ResponseTime := elapsed }

/-- The result for an unknown mode (`network/connectivity.go`,
lines 259-266): a structured failure, still exit 0 (the quote marks of the
original message around the mode names are left out here). -/
def unknownModeResult (targetIP mode : List Char) : ConnectivityResult :=
  { Success := false
    Message := "Unknown mode: ".data ++ mode
      ++ ". Use ping, tcp, udp, or all".data
    TargetIP := targetIP
    Mode := mode }

/-- The exit behaviour of `main` (`network/connectivity.go`,
lines 197-270): the only nonzero exit is the usage check
`len(os.Args) < 3`; every other path prints one JSON result line and
returns (exit 0), including fully failed probes and unknown modes. -/
def connectivityExitsNonzero (argv : List (List Char)) : Bool :=
  argv.length < 3

/-- C8: every probe failure is a structured `success = false` result with a
nonempty message, never an exception: a failed ping subprocess, a failed
TCP dial (DNS failure, refusal, timeout), a failed UDP dial, a failed UDP
write, and an unknown mode all produce such results, and the prober exits
nonzero exactly when the positional arguments are malformed (fewer than
two of them). -/
theorem c8_failuresAreStructured :
    (∀ (ip : List Char) (elapsed loss : Int),
        (checkPing ip true elapsed loss).Success = false
        ∧ (checkPing ip true elapsed loss).Message ≠ [])
    ∧ (∀ (ip : List Char) (port : Int) (e : List Char) (elapsed : Int),
        (checkTcpPort ip port (some e) elapsed).Success = false
        ∧ (checkTcpPort ip port (some e) elapsed).Message ≠ [])
    ∧ (∀ (ip : List Char) (port : Int) (e : List Char) (w : Bool) (elapsed : Int),
        (checkUdpPort ip port (some e) w elapsed).Success = false
        ∧ (checkUdpPort ip port (some e) w elapsed).Message ≠ [])
    ∧ (∀ (ip : List Char) (port elapsed : Int),
        (checkUdpPort ip port none true elapsed).Success = false
        ∧ (checkUdpPort ip port none true elapsed).Message ≠ [])
    ∧ (∀ ip mode : List Char,
        (unknownModeResult ip mode).Success = false
        ∧ (unknownModeResult ip mode).Message ≠ [])
    ∧ (∀ argv : List (List Char),
        connectivityExitsNonzero argv = true ↔ argv.length < 3) := by
  refine ⟨?_, ?_, ?_, ?_, ?_, ?_⟩
  · intro ip elapsed loss
    exact ⟨rfl, by simp [checkPing]⟩
  · intro ip port e elapsed
    exact ⟨rfl, by simp [checkTcpPort]⟩
  · intro ip port e w elapsed
    exact ⟨rfl, by simp [checkUdpPort]⟩
  · intro ip port elapsed
    exact ⟨rfl, by simp [checkUdpPort]⟩
  · intro ip mode
    exact ⟨rfl, by simp [unknownModeResult]⟩
  · intro argv
    unfold connectivityExitsNonzero
    exact decide_eq_true_iff
